import Mathlib

/-!
Verification of the address-splitter frontend and of the spec-modelled
orchestration core.

The repository ships the browser client (`frontend/app.js`, newest revision
kept as `src/unnamed/part_000`), deployment scripts and documentation; the
Python backend (`backend/src/app.py`) is not part of the source snapshot, so
the Orchestrator (`split`) and the Geocode Resolver (`resolve`) are modelled
from the specification and marked as such in their doc comments.

JavaScript values are embedded as follows: strings are Lean `String`
(with `List Char` cores for the scanning functions), `null`/`undefined`
string-valued expressions are `Option String`, JS truthiness of such values
is `jsTruthy` (false exactly on `null`/`undefined`/`""`), and
`String.prototype.trim` is `jsTrim` over the core whitespace characters.
Network effects are made explicit: a function that performs `fetch` takes the
responses as arguments and returns a trace of the requests it issued.
-/

namespace AddressSplitter

/-- Whitespace recognised by the embedding of `String.prototype.trim`
(space, tab, newline, carriage return, vertical tab, form feed). -/
def jsWhitespace (c : Char) : Bool :=
  c = ' ' || c = '\t' || c = '\n' || c = '\r' || c = '\x0b' || c = '\x0c'

/-- Trim `jsWhitespace` from both ends of a character list. -/
def trimChars (l : List Char) : List Char :=
  ((l.dropWhile jsWhitespace).reverse.dropWhile jsWhitespace).reverse

/-- Embedding of `String.prototype.trim` (`(x || '').trim()` patterns). -/
def jsTrim (s : String) : String :=
  ⟨trimChars s.data⟩

/-- JS truthiness of a string-or-null/undefined value: `null`, `undefined`
and the empty string are falsy, every other string is truthy. -/
def jsTruthy : Option String → Bool
  | none => false
  | some s => s != ""

/-- The fixed set of pipeline identifiers known to the client
(`frontend/app.js`: the three checkbox rows `#p1`/`#p2`/`#p3`). -/
def knownPipelines : List String :=
  ["bedrock_geonames", "libpostal_geonames", "aws_services"]

/-- Embedding of the pipeline-toggle array of `doSplit`:
`[p1 ? 'bedrock_geonames' : null, p2 ? ..., p3 ? ...].filter(Boolean)`:
a list of string-or-null entries with the `null`s dropped
(`src/unnamed/part_000`, lines 301-305). -/
def selectedPipelines (p1 p2 p3 : Bool) : List String :=
  ([if p1 then some "bedrock_geonames" else none,
    if p2 then some "libpostal_geonames" else none,
    if p3 then some "aws_services" else none]).filterMap id

/-- The state of the split form: the `#country`, `#address` and `#modelId`
field values and the three pipeline checkboxes `#p1`/`#p2`/`#p3`. -/
structure SplitForm where
  country : String
  address : String
  modelId : String
  p1 : Bool
  p2 : Bool
  p3 : Bool
  deriving DecidableEq

/-- The JSON body of the `POST /split` request built by `doSplit`. -/
structure SplitPayload where
  country_code : String
  raw_address : String
  modelId : String
  pipelines : List String
  deriving DecidableEq

/-- The `payload` object literal of `doSplit`
(`src/unnamed/part_000`, lines 297-306): every text field is
`(field.value || '').trim()` and `pipelines` drops unchecked toggles. -/
def buildSplitPayload (f : SplitForm) : SplitPayload :=
  { country_code := jsTrim f.country
    raw_address := jsTrim f.address
    modelId := jsTrim f.modelId
    pipelines := selectedPipelines f.p1 f.p2 f.p3 }

/-- Embedding of `doSplit` up to the point where the HTTP request is dispatched
(`src/unnamed/part_000`, lines 293-319): `Except.error msg` is the thrown
validation error (no call to `apiFetch('/split', ...)` is made, so no
pipeline runs and nothing is persisted), `Except.ok payload` means the
request body `payload` is handed to `apiFetch`. -/
def doSplit (f : SplitForm) : Except String SplitPayload :=
  let payload := buildSplitPayload f
  if payload.raw_address = "" then
    Except.error "Please fill in Address."
  else if payload.pipelines.contains "bedrock_geonames" && payload.modelId == "" then
    Except.error "Select a Bedrock model or inference profile for pipeline #1."
  else
    Except.ok payload

/-- A token object as kept in `sessionStorage` under `'tokens'` and as parsed
from the identity provider: the fields the client reads, each possibly
absent. -/
structure TokenSet where
  id_token : Option String
  access_token : Option String
  refresh_token : Option String
  deriving DecidableEq

/-- One field of the object-spread `{...old, ...fresh}`: a field present in
`fresh` wins, otherwise the old value is kept. -/
def mergeField (old fresh : Option String) : Option String :=
  match fresh with
  | some v => some v
  | none => old

/-- Embedding of the object spread `{...old, ...fresh}` on token objects. -/
def spreadTokens (old fresh : TokenSet) : TokenSet :=
  { id_token := mergeField old.id_token fresh.id_token
    access_token := mergeField old.access_token fresh.access_token
    refresh_token := mergeField old.refresh_token fresh.refresh_token }

/-- Embedding of `refreshTokens` (`src/unnamed/part_000`, lines 72-100).
`store` is `tokenStore().get()` (`none` when nothing is stored); `resp` is
the outcome of the `POST <cognitoDomain>/oauth2/token` call, `some fresh`
when `resp.ok` with parsed body `fresh` and `none` when the HTTP call is
not ok.  The result is the new content of the token store on success, or
the thrown error message. -/
def refreshTokens (store : Option TokenSet) (resp : Option TokenSet) :
    Except String (Option TokenSet) :=
  match store with
  | none => Except.error "No refresh token available"
  | some tokens =>
    if jsTruthy tokens.refresh_token then
      match resp with
      | none => Except.error "Refresh failed"
      | some fresh =>
        Except.ok (some { spreadTokens tokens fresh with
                          refresh_token := tokens.refresh_token })
    else
      Except.error "No refresh token available"

/-- An HTTP response as observed by the client: its status code and the
`message` field of its JSON body, when any. -/
structure HttpResponse where
  status : Nat
  message : Option String
  deriving DecidableEq

/-- Embedding of `Response.ok` of the fetch API: status in the range 200-299. -/
def respOk (r : HttpResponse) : Bool :=
  200 ≤ r.status && r.status < 300

/-- The error text thrown on a non-ok response:
`data?.message || ... || 'API error <status>'`. -/
def respErrorMsg (r : HttpResponse) : String :=
  match r.message with
  | some m => m
  | none => "API error " ++ toString r.status

/-- A JS template literal slot for a string-or-undefined value:
`undefined` is stringified as `"undefined"`. -/
def jsTemplate (v : Option String) : String :=
  match v with
  | some s => s
  | none => "undefined"

/-- The `Authorization` header built by `doReq` from the current token
store: the template literal `Bearer ${t.id_token}`. -/
def bearerOf (store : Option TokenSet) : String :=
  "Bearer " ++ jsTemplate (store.bind TokenSet.id_token)

/-- One HTTP request issued by `apiFetch` to the API, together with the
token-store content at the moment `doReq` read it. -/
structure ApiRequest where
  path : String
  authorization : String
  storeAtIssue : Option TokenSet
  deriving DecidableEq

deriving instance DecidableEq for Except

/-- The full observable behaviour of one `apiFetch` call: the API requests
it issued in order, how many times it invoked the `refreshTokens` flow, its
result and the final token store. -/
structure ApiFetchTrace where
  requests : List ApiRequest
  refreshCalls : Nat
  result : Except String Unit
  finalStore : Option TokenSet
  deriving DecidableEq

/-- Embedding of `apiFetch` (`src/unnamed/part_000`, lines 158-185).
`store` is the token store at entry, `resp1` the response to the first
request, `resp2` the response to the retried request (consulted only when a
retry happens), and `refreshResp` the outcome of the refresh token HTTP call
(consulted only when `refreshTokens` runs); the successfully parsed response
body is abstracted to `Unit`. -/
def apiFetch (path : String) (store : Option TokenSet)
    (resp1 resp2 : HttpResponse) (refreshResp : Option TokenSet) :
    ApiFetchTrace :=
  if jsTruthy (store.bind TokenSet.id_token) then
    let req1 : ApiRequest := ⟨path, bearerOf store, store⟩
    if resp1.status = 401 then
      match refreshTokens store refreshResp with
      | Except.error e => ⟨[req1], 1, Except.error e, store⟩
      | Except.ok store2 =>
        let req2 : ApiRequest := ⟨path, bearerOf store2, store2⟩
        ⟨[req1, req2], 1,
          if respOk resp2 then Except.ok () else Except.error (respErrorMsg resp2),
          store2⟩
    else
      ⟨[req1], 0,
        if respOk resp1 then Except.ok () else Except.error (respErrorMsg resp1),
        store⟩
  else
    ⟨[], 0, Except.error "Not authenticated", store⟩

/-- What the OAuth-callback prologue of `init` did: the caught error message
shown via `setError` (if any), whether `exchangeCodeForTokens` was called,
and the resulting token store. -/
structure InitOutcome where
  errorMsg : Option String
  exchangeCalled : Bool
  store : Option TokenSet
  deriving DecidableEq

/-- The OAuth-callback prologue of `init`
(`src/unnamed/part_000`, lines 408-427).
`codeParam` and `stateParam` are `url.searchParams.get('code')` /
`get('state')` (`none` when absent), `storedState` is
`sessionStorage.getItem('oauth_state')`, `store0` the token store at entry
and `exchangeResp` the outcome of `exchangeCodeForTokens` (`none` when the
exchange throws, e.g. missing PKCE verifier or a non-ok token endpoint
response).  A thrown error is caught by the surrounding `try`/`catch` and
shown via `setError`. -/
def initCallback (codeParam stateParam storedState : Option String)
    (store0 : Option TokenSet) (exchangeResp : Option TokenSet) : InitOutcome :=
  if jsTruthy codeParam then
    if !jsTruthy storedState || storedState != stateParam then
      ⟨some "OAuth state mismatch", false, store0⟩
    else
      match exchangeResp with
      | none => ⟨some "Token exchange failed", true, store0⟩
      | some tokens => ⟨none, true, some tokens⟩
  else
    ⟨none, false, store0⟩

/-- Whether `pat` is an initial segment of `s` (character-by-character check). -/
def startsWith : List Char → List Char → Bool
  | [], _ => true
  | _ :: _, [] => false
  | p :: ps, c :: cs => p == c && startsWith ps cs

/-- Core of `String.prototype.split` with a string separator: scans `s` left
to right; `skip > 0` means the scanner is still inside a previously matched
separator occurrence (so occurrences never overlap), `acc` holds the current
piece reversed.  Returns the list of pieces. -/
def splitGo (pat : List Char) : Nat → List Char → List Char → List (List Char)
  | _, acc, [] => [acc.reverse]
  | n + 1, acc, _ :: rest => splitGo pat n acc rest
  | 0, acc, c :: rest =>
    if startsWith pat (c :: rest) then
      acc.reverse :: splitGo pat (pat.length - 1) [] rest
    else
      splitGo pat 0 (c :: acc) rest

/-- Embedding of `String.prototype.replaceAll` with a string pattern: every
leftmost non-overlapping occurrence of `pat` is replaced by `rep`,
equivalently `s.split(pat).join(rep)`.  The client only ever calls it with
the non-empty placeholder literals, so the empty pattern is mapped to the
identity. -/
def jsReplaceAll (pat rep s : List Char) : List Char :=
  match pat with
  | [] => s
  | _ :: _ => List.intercalate rep (splitGo pat 0 [] s)

/-- The `{name}` placeholder of the prompt template. -/
def nameVar : List Char := "{name}".data

/-- The `{country}` placeholder of the prompt template. -/
def countryVar : List Char := "{country}".data

/-- The `{address}` placeholder of the prompt template. -/
def addressVar : List Char := "{address}".data

/-- Embedding of `renderPromptPreview` (`src/unnamed/part_000`, lines 285-291): the
rendered prompt shown in `#renderedPrompt`, computed as
`tpl.replaceAll('{country}', country).replaceAll('{address}', address)`
from the `#promptTemplate`, `#country` and `#address` field values.  The
current form has no name field and the `{name}` placeholder is not
substituted. -/
def renderPromptPreview (tpl country address : String) : String :=
  ⟨jsReplaceAll addressVar address.data
    (jsReplaceAll countryVar country.data tpl.data)⟩

/-- Independent rendition of the words "every occurrence of the placeholder
`pat` replaced by `rep`": a single left-to-right scan; `skip > 0` means the
scanner is inside an already replaced occurrence. -/
def substGo (pat rep : List Char) : Nat → List Char → List Char
  | _, [] => []
  | n + 1, _ :: rest => substGo pat rep n rest
  | 0, c :: rest =>
    if startsWith pat (c :: rest) then
      rep ++ substGo pat rep (pat.length - 1) rest
    else
      c :: substGo pat rep 0 rest

/-- Compute `s` with every (leftmost, non-overlapping) occurrence of `pat` replaced
by `rep`. -/
def substEvery (pat rep s : List Char) : List Char :=
  substGo pat rep 0 s

/-- Rendition of the claim that the preview is "the template with every
occurrence of `{name}` replaced by the name value, every occurrence of
`{country}` replaced by the country value, and every occurrence of
`{address}` replaced by the address value": one simultaneous left-to-right
scan of the template substituting all three placeholders. -/
def renderVarsGo (nm co ad : List Char) : Nat → List Char → List Char
  | _, [] => []
  | n + 1, _ :: rest => renderVarsGo nm co ad n rest
  | 0, c :: rest =>
    if startsWith nameVar (c :: rest) then
      nm ++ renderVarsGo nm co ad (nameVar.length - 1) rest
    else if startsWith countryVar (c :: rest) then
      co ++ renderVarsGo nm co ad (countryVar.length - 1) rest
    else if startsWith addressVar (c :: rest) then
      ad ++ renderVarsGo nm co ad (addressVar.length - 1) rest
    else
      c :: renderVarsGo nm co ad 0 rest

/-- The template with all three prompt placeholders simultaneously
substituted, as the spec sentence for the preview reads. -/
def renderAllVars (nm co ad tpl : String) : String :=
  ⟨renderVarsGo nm.data co.data ad.data 0 tpl.data⟩

/-- Accuracy tier of a geocode result (spec: `street|postcode|city|none`). -/
inductive GeoAccuracy where
  | street
  | postcode
  | city
  | none
  deriving DecidableEq

/-- Modelled from the spec: `NormalizedAddress` (spec section 3); the common
record shape all pipelines are normalized into.  Confidence is embedded as a
rational clamped to `[0,1]`. -/
structure NormalizedAddress where
  address_line1 : String
  address_line2 : Option String
  postcode : Option String
  city : Option String
  state_region : Option String
  neighborhood : Option String
  po_box : Option String
  company : Option String
  attention : Option String
  country_code : String
  confidence : Rat
  warnings : List String
  source : String
  latitude : Option Rat
  longitude : Option Rat
  geo_accuracy : GeoAccuracy
  deriving DecidableEq

/-- Modelled from the spec: `PipelineResult` (spec section 3), the tagged
union `Ok(NormalizedAddress)` or `Failed(reason, pipeline_id)`. -/
inductive PipelineResult where
  | ok (addr : NormalizedAddress)
  | failed (reason : String) (pipeline_id : String)
  deriving DecidableEq

/-- Modelled from the spec: `AddressInput` (spec section 3). -/
structure AddressInput where
  recipient_name : Option String
  country_code : Option String
  raw_address : String
  model_id : Option String
  deriving DecidableEq

/-- Modelled from the spec: `ComparisonSubmission` (spec section 3); the
`results` mapping is embedded as an association list keyed by pipeline id. -/
structure ComparisonSubmission where
  submission_id : String
  user_id : String
  created_at : String
  input : AddressInput
  results : List (String × PipelineResult)
  preferred_method : Option String
  deriving DecidableEq

/-- Modelled from the spec: the request-aborting error classes of the
orchestrator (spec section 7); per-pipeline errors are data
(`PipelineResult.failed`), not errors of `split`. -/
inductive SplitError where
  | validation (msg : String)
  | auth (msg : String)
  | persistence (msg : String)
  deriving DecidableEq

/-- Modelled from the spec: the Orchestrator contract
`split(AddressInput, selected_pipeline_ids) -> ComparisonSubmission`
(spec section 4.4); the backend (`backend/src/app.py`) is not part of the
source snapshot.  `adapters pid input` is the settled `PipelineResult` of
pipeline `pid` (spec section 4.3: adapters are total — failures are
`Failed` values); `subId`, `userId` and `createdAt` stand for the fresh
submission id, the caller identity and the timestamp.  Validation (spec
section 4.4): reject an empty `raw_address`, and reject a missing model
identifier when the generative pipeline is selected; otherwise every
selected pipeline contributes exactly one entry to `results`. -/
def split (input : AddressInput) (selected : List String)
    (adapters : String → AddressInput → PipelineResult)
    (subId userId createdAt : String) :
    Except SplitError ComparisonSubmission :=
  if input.raw_address = "" then
    Except.error (SplitError.validation "raw_address must be non-empty")
  else if selected.contains "bedrock_geonames" && !jsTruthy input.model_id then
    Except.error (SplitError.validation "model_id required for the generative pipeline")
  else
    Except.ok
      { submission_id := subId
        user_id := userId
        created_at := createdAt
        input := input
        results := selected.map (fun pid => (pid, adapters pid input))
        preferred_method := none }

/-- Modelled from the spec: a postcode record of the offline GeoReference
dataset, keyed by `(country_code, postcode)` (spec section 3). -/
structure PostcodeRec where
  country : String
  postcode : String
  latitude : Rat
  longitude : Rat
  deriving DecidableEq

/-- Modelled from the spec: a city record of the offline GeoReference
dataset, keyed by `(country_code, normalized_city_name)` and carrying the
population and the raw identifier used for deterministic tie-breaks
(spec sections 3 and 4.2). -/
structure CityRec where
  country : String
  normName : String
  rawId : String
  population : Nat
  latitude : Rat
  longitude : Rat
  deriving DecidableEq

/-- Modelled from the spec: the read-only offline GeoReference dataset
(spec section 3), with keys pre-normalized at load time. -/
structure GeoRef where
  postcodes : List PostcodeRec
  cities : List CityRec
  deriving DecidableEq

/-- Outcome of the Geocode Resolver: centroid plus accuracy tier and match
label, or `notFound` — a valid terminal state, not a failure
(spec section 4.2, step 5). -/
inductive ResolveOutcome where
  | found (latitude longitude : Rat) (accuracy : GeoAccuracy)
      (matchLabel : Option String)
  | notFound
  deriving DecidableEq

/-- Fold accented Latin-1 letters to their ASCII base letter (applied after
casefolding); other characters are returned unchanged. -/
def foldDiacritic (c : Char) : Char :=
  match c with
  | 'à' | 'á' | 'â' | 'ã' | 'ä' | 'å' => 'a'
  | 'è' | 'é' | 'ê' | 'ë' => 'e'
  | 'ì' | 'í' | 'î' | 'ï' => 'i'
  | 'ò' | 'ó' | 'ô' | 'õ' | 'ö' => 'o'
  | 'ù' | 'ú' | 'û' | 'ü' => 'u'
  | 'ç' => 'c'
  | 'ñ' => 'n'
  | 'ý' | 'ÿ' => 'y'
  | _ => c

/-- Collapse runs of spaces to a single space (one left-to-right scan). -/
def collapseSpaces : Bool → List Char → List Char
  | _, [] => []
  | prevSpace, c :: rest =>
    if c = ' ' then
      if prevSpace then collapseSpaces true rest
      else ' ' :: collapseSpaces true rest
    else
      c :: collapseSpaces false rest

/-- Modelled from the spec: city-name normalization for matching
(spec section 4.2, step 1): casefold, ASCII-fold diacritics, drop
punctuation, collapse whitespace; applied identically to queries and to the
stored reference keys. -/
def normalizeCityName (s : String) : String :=
  ⟨trimChars (collapseSpaces false
    (((s.data.map (fun c =>
        if jsWhitespace c then ' ' else foldDiacritic c.toLower)).filter
      (fun c => c.isAlphanum || c = ' '))))⟩

/-- Lexicographic `≤` on character lists, comparing code points. -/
def lexLeb : List Char → List Char → Bool
  | [], _ => true
  | _ :: _, [] => false
  | x :: xs, y :: ys =>
    if x.toNat < y.toNat then true
    else if y.toNat < x.toNat then false
    else lexLeb xs ys

/-- Lexicographic `<` on character lists, comparing code points. -/
def lexLtb : List Char → List Char → Bool
  | [], [] => false
  | [], _ :: _ => true
  | _ :: _, [] => false
  | x :: xs, y :: ys =>
    if x.toNat < y.toNat then true
    else if y.toNat < x.toNat then false
    else lexLtb xs ys

/-- Lexicographic `≤` on strings (code-point order). -/
def strLeb (a b : String) : Bool :=
  lexLeb a.data b.data

/-- Lexicographic `<` on strings (code-point order). -/
def strLtb (a b : String) : Bool :=
  lexLtb a.data b.data

/-- The candidate record wins over the current best when it has strictly
higher population, or equal population and a lexicographically smaller raw
identifier (spec section 4.2, step 3: deterministic tie-break). -/
def cityBetter (b r : CityRec) : CityRec :=
  if b.population < r.population then r
  else if r.population = b.population ∧ strLtb r.rawId b.rawId = true then r
  else b

/-- Whether `r` is at least as good a candidate as `x` under the spec ordering:
strictly more populated, or equally populated with a raw identifier that is
lexicographically no larger. -/
def cityBeats (r x : CityRec) : Prop :=
  x.population < r.population ∨
    (x.population = r.population ∧ strLeb r.rawId x.rawId = true)

/-- Scan the remaining candidates keeping the best one so far. -/
def selectCityFrom (b : CityRec) : List CityRec → CityRec
  | [] => b
  | r :: rest => selectCityFrom (cityBetter b r) rest

/-- Modelled from the spec: among the matching city records, select the one
with highest population, ties broken by lexicographically smallest raw
identifier (spec section 4.2, step 3). -/
def selectCity : List CityRec → Option CityRec
  | [] => Option.none
  | r :: rest => some (selectCityFrom r rest)

/-- Uppercase a country code character by character (ASCII). -/
def upperString (s : String) : String :=
  ⟨s.data.map Char.toUpper⟩

/-- The city records matching the normalized `(country_code, city)` query
(spec section 4.2, step 3). -/
def cityCandidates (ds : GeoRef) (cc city : String) : List CityRec :=
  ds.cities.filter
    (fun r => r.country == upperString cc && r.normName == normalizeCityName city)

/-- City-based resolution: best matching city record, or `notFound` when
the city is absent or nothing matches (spec section 4.2, steps 3 and 5). -/
def resolveCity (ds : GeoRef) (cc : String) : Option String → ResolveOutcome
  | Option.none => ResolveOutcome.notFound
  | some city =>
    match selectCity (cityCandidates ds cc city) with
    | some r =>
      ResolveOutcome.found r.latitude r.longitude GeoAccuracy.city (some r.rawId)
    | Option.none => ResolveOutcome.notFound

/-- Modelled from the spec: the Geocode Resolver contract
`resolve(country_code, postcode?, city?)` (spec section 4.2); the backend
is not part of the source snapshot.  Postcode present: direct lookup on the
`(country_code, postcode)` key, accuracy `postcode`; on a miss, fall through
to city-based resolution (spec design note: fallback-to-city).  Otherwise
resolve by city; no match at any stage is the valid terminal `notFound`. -/
def resolve (ds : GeoRef) (cc : String) (postcode city : Option String) :
    ResolveOutcome :=
  match postcode with
  | some pc =>
    match ds.postcodes.find? (fun r => r.country == upperString cc && r.postcode == pc) with
    | some r =>
      ResolveOutcome.found r.latitude r.longitude GeoAccuracy.postcode
        (some (r.country ++ " " ++ r.postcode))
    | Option.none => resolveCity ds cc city
  | Option.none => resolveCity ds cc city

/-! Theorems.  Helper lemmas come first, then one theorem per claim (with a
witness where the theorem carries hypotheses). -/

theorem selectedPipelines_contains_bedrock (p2 p3 : Bool) :
    "bedrock_geonames" ∈ selectedPipelines true p2 p3 := by
  cases p2 <;> cases p3 <;> decide

/-- Claim C2: whenever the raw address field trims to the empty string
(empty or whitespace-only), `doSplit` throws the validation error before
dispatch: no `POST /split` request is built, no pipeline runs and nothing
is persisted. -/
theorem doSplit_rejects_empty_address (f : SplitForm)
    (h : jsTrim f.address = "") :
    doSplit f = Except.error "Please fill in Address." := by
  unfold doSplit buildSplitPayload
  simp [h]

theorem doSplit_rejects_empty_address_witness :
    jsTrim " \n\t " = "" ∧
      doSplit ⟨"CH", " \n\t ", "model-a", true, true, true⟩ =
        Except.error "Please fill in Address." :=
  ⟨by decide,
    doSplit_rejects_empty_address ⟨"CH", " \n\t ", "model-a", true, true, true⟩
      (by decide)⟩

/-- Claim C3: whenever the generative pipeline checkbox `#p1` is checked and
the model field trims to the empty string, `doSplit` throws a validation
error before dispatch: no `POST /split` request is made. -/
theorem doSplit_rejects_missing_model (f : SplitForm) (h1 : f.p1 = true)
    (h2 : jsTrim f.modelId = "") :
    ∃ e, doSplit f = Except.error e := by
  unfold doSplit buildSplitPayload
  by_cases ha : jsTrim f.address = ""
  · exact ⟨"Please fill in Address.", by simp [ha]⟩
  · exact ⟨"Select a Bedrock model or inference profile for pipeline #1.",
      by simp [ha, h1, h2, selectedPipelines_contains_bedrock]⟩

theorem doSplit_rejects_missing_model_witness :
    (jsTrim "  " = "" ∧
      ∃ e, doSplit ⟨"CH", "Rue du Rhone 10", "  ", true, false, true⟩ =
        Except.error e) :=
  ⟨by decide,
    doSplit_rejects_missing_model ⟨"CH", "Rue du Rhone 10", "  ", true, false, true⟩
      rfl (by decide)⟩

/-- Claim C6: for every checkbox state, the `pipelines` list of the
`POST /split` body built by `doSplit` is a duplicate-free subset of the
fixed known set, contains a pipeline id exactly when its checkbox is
checked, and holds no null entries (being a list of strings). -/
theorem splitPayload_pipelines_wellFormed (f : SplitForm) :
    ((buildSplitPayload f).pipelines).Nodup ∧
      (∀ x ∈ (buildSplitPayload f).pipelines, x ∈ knownPipelines) ∧
      ("bedrock_geonames" ∈ (buildSplitPayload f).pipelines ↔ f.p1 = true) ∧
      ("libpostal_geonames" ∈ (buildSplitPayload f).pipelines ↔ f.p2 = true) ∧
      ("aws_services" ∈ (buildSplitPayload f).pipelines ↔ f.p3 = true) := by
  obtain ⟨c, a, m, p1, p2, p3⟩ := f
  simp only [buildSplitPayload]
  cases p1 <;> cases p2 <;> cases p3 <;> decide

theorem jsTruthy_iff (o : Option String) :
    jsTruthy o = true ↔ ∃ s, o = some s ∧ s ≠ "" := by
  cases o with
  | none => simp [jsTruthy]
  | some s => simp [jsTruthy]

theorem refreshTokens_ok_shape (store resp : Option TokenSet)
    (store2 : Option TokenSet)
    (h : refreshTokens store resp = Except.ok store2) :
    ∃ tokens fresh, store = some tokens ∧
      jsTruthy tokens.refresh_token = true ∧ resp = some fresh ∧
      store2 = some { spreadTokens tokens fresh with
                      refresh_token := tokens.refresh_token } := by
  cases store with
  | none => simp [refreshTokens] at h
  | some tokens =>
    by_cases ht : jsTruthy tokens.refresh_token
    · cases resp with
      | none => simp [refreshTokens, ht] at h
      | some fresh =>
        refine ⟨tokens, fresh, rfl, ht, rfl, ?_⟩
        simpa [refreshTokens, ht] using h.symm
    · simp [refreshTokens, ht] at h

theorem mergeField_of_left_some (v : String) (x : Option String) :
    ∃ w, mergeField (some v) x = some w := by
  cases x <;> simp [mergeField]

/-- Claim C5: `apiFetch` with no `id_token` in the token store fails with
the authentication error without issuing any HTTP request; otherwise every
API request it issues carries an `Authorization` header equal to
`Bearer <id_token>` for the `id_token` held by the token store at the
moment the request is built. -/
theorem apiFetch_bearer_auth (path : String) (store : Option TokenSet)
    (resp1 resp2 : HttpResponse) (refreshResp : Option TokenSet) :
    (jsTruthy (store.bind TokenSet.id_token) = false →
      (apiFetch path store resp1 resp2 refreshResp).requests = [] ∧
        (apiFetch path store resp1 resp2 refreshResp).result =
          Except.error "Not authenticated") ∧
    (∀ r ∈ (apiFetch path store resp1 resp2 refreshResp).requests,
      ∃ t, r.storeAtIssue.bind TokenSet.id_token = some t ∧
        r.authorization = "Bearer " ++ t) := by
  by_cases htok : jsTruthy (store.bind TokenSet.id_token) = true
  · constructor
    · intro hcontra
      rw [htok] at hcontra
      cases hcontra
    · obtain ⟨t0, hsome, -⟩ := (jsTruthy_iff _).mp htok
      intro r hr
      have hbear : bearerOf store = "Bearer " ++ t0 := by
        simp [bearerOf, hsome, jsTemplate]
      by_cases h401 : resp1.status = 401
      · cases hok : refreshTokens store refreshResp with
        | error e =>
          simp only [apiFetch, htok, if_true, h401, if_pos, hok] at hr
          simp only [List.mem_singleton] at hr
          subst hr
          exact ⟨t0, hsome, hbear⟩
        | ok store2 =>
          obtain ⟨tokens, fresh, hst, -, -, hs2⟩ :=
            refreshTokens_ok_shape store refreshResp store2 hok
          have hid : ∃ t2, store2.bind TokenSet.id_token = some t2 := by
            subst hs2
            have hv : ∃ v, tokens.id_token = some v := by
              rcases (jsTruthy_iff _).mp htok with ⟨s, hsome2, -⟩
              rw [hst] at hsome2
              simp only [Option.bind, Option.some.injEq] at hsome2
              exact ⟨s, hsome2⟩
            obtain ⟨v, hv⟩ := hv
            obtain ⟨w, hw⟩ := mergeField_of_left_some v fresh.id_token
            refine ⟨w, ?_⟩
            simp [spreadTokens, hv, hw]
          obtain ⟨t2, ht2⟩ := hid
          simp only [apiFetch, htok, if_true, h401, if_pos, hok] at hr
          simp only [List.mem_cons, List.mem_singleton, List.not_mem_nil,
            or_false] at hr
          cases hr with
          | inl h1 =>
            subst h1
            exact ⟨t0, hsome, hbear⟩
          | inr h2 =>
            subst h2
            exact ⟨t2, ht2, by simp [bearerOf, ht2, jsTemplate]⟩
      · simp only [apiFetch, htok, if_true, h401, if_neg, if_false] at hr
        simp only [List.mem_singleton] at hr
        subst hr
        exact ⟨t0, hsome, hbear⟩
  · have hfalse : jsTruthy (store.bind TokenSet.id_token) = false := by
      cases h : jsTruthy (store.bind TokenSet.id_token) with
      | false => rfl
      | true => exact absurd h htok
    constructor
    · intro _
      constructor <;> simp [apiFetch, hfalse]
    · intro r hr
      simp [apiFetch, hfalse] at hr

theorem apiFetch_bearer_auth_witness :
    ((apiFetch "/models" Option.none ⟨200, Option.none⟩ ⟨200, Option.none⟩
        Option.none).requests = [] ∧
      (apiFetch "/models" Option.none ⟨200, Option.none⟩ ⟨200, Option.none⟩
        Option.none).result = Except.error "Not authenticated") ∧
    (∃ t, (some (⟨some "ID", Option.none, Option.none⟩ : TokenSet)).bind
        TokenSet.id_token = some t ∧
      "Bearer ID" = "Bearer " ++ t) := by
  refine ⟨(apiFetch_bearer_auth "/models" Option.none ⟨200, Option.none⟩
    ⟨200, Option.none⟩ Option.none).1 (by decide), ?_⟩
  have h := (apiFetch_bearer_auth "/recent"
    (some ⟨some "ID", Option.none, Option.none⟩) ⟨200, Option.none⟩
    ⟨200, Option.none⟩ Option.none).2
    ⟨"/recent", "Bearer ID", some ⟨some "ID", Option.none, Option.none⟩⟩
    (by decide)
  exact h

/-- Claim C8 (counterexample): a first response with status 401 does not
always lead to exactly one retry.  With tokens that hold an `id_token` but
no `refresh_token`, the refresh flow throws and `apiFetch` propagates the
error after a single request — the retry never happens. -/
theorem apiFetch_401_no_retry_cex :
    (apiFetch "/split" (some ⟨some "ID", Option.none, Option.none⟩)
        ⟨401, Option.none⟩ ⟨200, Option.none⟩ Option.none).requests.length ≠ 2 ∧
    (apiFetch "/split" (some ⟨some "ID", Option.none, Option.none⟩)
        ⟨401, Option.none⟩ ⟨200, Option.none⟩ Option.none).refreshCalls = 1 := by
  decide

/-- Claim C8 (amended): on a first 401 response `apiFetch` invokes the
refresh flow exactly once; when the refresh succeeds it retries exactly
once, with the bearer credential of the refreshed store, and a not-ok
retried response is raised as an error with no further refresh or retry;
when the refresh fails, its error propagates and no retry is issued. -/
theorem apiFetch_401_refresh_retry (path : String) (store : Option TokenSet)
    (resp1 resp2 : HttpResponse) (refreshResp : Option TokenSet)
    (htok : jsTruthy (store.bind TokenSet.id_token) = true)
    (h401 : resp1.status = 401) :
    (apiFetch path store resp1 resp2 refreshResp).refreshCalls = 1 ∧
    (∀ store2, refreshTokens store refreshResp = Except.ok store2 →
      (apiFetch path store resp1 resp2 refreshResp).requests =
        [⟨path, bearerOf store, store⟩, ⟨path, bearerOf store2, store2⟩] ∧
      (respOk resp2 = false →
        (apiFetch path store resp1 resp2 refreshResp).result =
          Except.error (respErrorMsg resp2))) ∧
    (∀ e, refreshTokens store refreshResp = Except.error e →
      (apiFetch path store resp1 resp2 refreshResp).requests =
        [⟨path, bearerOf store, store⟩] ∧
      (apiFetch path store resp1 resp2 refreshResp).result =
        Except.error e) := by
  cases hok : refreshTokens store refreshResp with
  | error e0 =>
    refine ⟨by simp [apiFetch, htok, h401, hok], ?_, ?_⟩
    · intro store2 hco
      cases hco
    · intro e he
      cases he
      constructor <;> simp [apiFetch, htok, h401, hok]
  | ok store2 =>
    refine ⟨by simp [apiFetch, htok, h401, hok], ?_, ?_⟩
    · intro s2 hs2
      cases hs2
      constructor
      · simp [apiFetch, htok, h401, hok]
      · intro hnok
        simp [apiFetch, htok, h401, hok, hnok]
    · intro e he
      cases he

theorem apiFetch_401_refresh_retry_witness :
    (apiFetch "/split" (some ⟨some "OLD", Option.none, some "RT"⟩)
        ⟨401, Option.none⟩ ⟨500, some "boom"⟩
        (some ⟨some "NEW", Option.none, some "RESPRT"⟩)).refreshCalls = 1 ∧
    (apiFetch "/split" (some ⟨some "OLD", Option.none, some "RT"⟩)
        ⟨401, Option.none⟩ ⟨500, some "boom"⟩
        (some ⟨some "NEW", Option.none, some "RESPRT"⟩)).requests =
      [⟨"/split", "Bearer OLD", some ⟨some "OLD", Option.none, some "RT"⟩⟩,
        ⟨"/split", "Bearer NEW", some ⟨some "NEW", Option.none, some "RT"⟩⟩] ∧
    (apiFetch "/split" (some ⟨some "OLD", Option.none, some "RT"⟩)
        ⟨401, Option.none⟩ ⟨500, some "boom"⟩
        (some ⟨some "NEW", Option.none, some "RESPRT"⟩)).result =
      Except.error "boom" := by
  have h := apiFetch_401_refresh_retry "/split"
    (some ⟨some "OLD", Option.none, some "RT"⟩) ⟨401, Option.none⟩
    ⟨500, some "boom"⟩ (some ⟨some "NEW", Option.none, some "RESPRT"⟩)
    (by decide) rfl
  have h2 := h.2.1 (some ⟨some "NEW", Option.none, some "RT"⟩) (by decide)
  exact ⟨h.1, by simpa using h2.1, by simpa using h2.2 (by decide)⟩

/-- Claim C9: a successful `refreshTokens` call keeps the stored
`refresh_token` equal to its pre-refresh value — even when the refresh
response carries its own `refresh_token` field — while every token field
present in the response overwrites the stored one. -/
theorem refreshTokens_keeps_refresh_token (tokens fresh : TokenSet)
    (h : jsTruthy tokens.refresh_token = true) :
    ∃ st, refreshTokens (some tokens) (some fresh) = Except.ok (some st) ∧
      st.refresh_token = tokens.refresh_token ∧
      (∀ v, fresh.id_token = some v → st.id_token = some v) ∧
      (∀ v, fresh.access_token = some v → st.access_token = some v) := by
  refine ⟨{ spreadTokens tokens fresh with
            refresh_token := tokens.refresh_token },
    by simp [refreshTokens, h], rfl, ?_, ?_⟩
  · intro v hv
    simp [spreadTokens, mergeField, hv]
  · intro v hv
    simp [spreadTokens, mergeField, hv]

theorem refreshTokens_keeps_refresh_token_witness :
    ∃ st, refreshTokens (some ⟨some "OLDID", some "OLDAC", some "RT"⟩)
        (some ⟨some "NEWID", some "NEWAC", some "EVILRT"⟩) =
        Except.ok (some st) ∧
      st.refresh_token = some "RT" ∧ st.id_token = some "NEWID" ∧
      st.access_token = some "NEWAC" := by
  obtain ⟨st, h1, h2, h3, h4⟩ :=
    refreshTokens_keeps_refresh_token ⟨some "OLDID", some "OLDAC", some "RT"⟩
      ⟨some "NEWID", some "NEWAC", some "EVILRT"⟩ (by decide)
  exact ⟨st, h1, h2, h3 "NEWID" rfl, h4 "NEWAC" rfl⟩

/-- Claim C10: on an OAuth callback carrying a (non-empty) `code`
parameter, a missing `state` parameter, a missing stored `oauth_state`, or
any disagreement between the two raises the `OAuth state mismatch` error
with no call to `exchangeCodeForTokens` and no change to the token store;
the exchange runs only when the stored state equals the callback state. -/
theorem initCallback_state_guard (codeParam stateParam storedState : Option String)
    (store0 : Option TokenSet) (exchangeResp : Option TokenSet)
    (hcode : jsTruthy codeParam = true) :
    ((stateParam = Option.none ∨ storedState = Option.none ∨
        storedState ≠ stateParam) →
      initCallback codeParam stateParam storedState store0 exchangeResp =
        ⟨some "OAuth state mismatch", false, store0⟩) ∧
    ((initCallback codeParam stateParam storedState store0
        exchangeResp).exchangeCalled = true →
      storedState = stateParam ∧ jsTruthy storedState = true) := by
  by_cases hguard : (!jsTruthy storedState || storedState != stateParam) = true
  · constructor
    · intro _
      simp only [initCallback, hcode, if_true, hguard]
    · intro hex
      simp only [initCallback, hcode, if_true, hguard] at hex
      cases hex
  · have hst : jsTruthy storedState = true ∧ storedState = stateParam := by
      simp only [Bool.or_eq_true, Bool.not_eq_true', bne_iff_ne, ne_eq,
        not_or, not_not] at hguard
      push_neg at hguard
      exact ⟨by simpa using hguard.1, hguard.2⟩
    constructor
    · intro hmis
      exfalso
      rcases hmis with h | h | h
      · rw [hst.2, h] at hst
        simpa [jsTruthy] using hst.1
      · rw [h] at hst
        simpa [jsTruthy] using hst.1
      · exact h hst.2
    · intro _
      exact ⟨hst.2, hst.1⟩

theorem initCallback_state_guard_witness :
    initCallback (some "authcode") (some "X") (some "Y") Option.none
      (some ⟨some "T", Option.none, Option.none⟩) =
    ⟨some "OAuth state mismatch", false, Option.none⟩ :=
  (initCallback_state_guard (some "authcode") (some "X") (some "Y")
    Option.none (some ⟨some "T", Option.none, Option.none⟩) (by decide)).1
    (Or.inr (Or.inr (by decide)))

theorem intercalate_one (sep x : List Char) :
    List.intercalate sep [x] = x := by
  simp [List.intercalate]

theorem intercalate_two (sep x y : List Char) (l : List (List Char)) :
    List.intercalate sep (x :: y :: l) =
      x ++ sep ++ List.intercalate sep (y :: l) := by
  simp [List.intercalate, List.intersperse]

theorem splitGo_ne_nil (pat : List Char) :
    ∀ (s : List Char) (skip : Nat) (acc : List Char),
      splitGo pat skip acc s ≠ [] := by
  intro s
  induction s with
  | nil =>
    intro skip acc
    cases skip <;> simp [splitGo]
  | cons c rest ih =>
    intro skip acc
    cases skip with
    | succ n => simpa [splitGo] using ih n acc
    | zero =>
      by_cases h : startsWith pat (c :: rest) = true
      · simp [splitGo, h]
      · simpa [splitGo, h] using ih 0 (c :: acc)

theorem intercalate_splitGo (pat rep : List Char) :
    ∀ (s : List Char) (skip : Nat) (acc : List Char),
      List.intercalate rep (splitGo pat skip acc s) =
        acc.reverse ++ substGo pat rep skip s := by
  intro s
  induction s with
  | nil =>
    intro skip acc
    cases skip <;> simp [splitGo, substGo, intercalate_one]
  | cons c rest ih =>
    intro skip acc
    cases skip with
    | succ n => simpa [splitGo, substGo] using ih n acc
    | zero =>
      by_cases h : startsWith pat (c :: rest) = true
      · rw [show splitGo pat 0 acc (c :: rest) =
            acc.reverse :: splitGo pat (pat.length - 1) [] rest from by
              simp [splitGo, h]]
        cases hsp : splitGo pat (pat.length - 1) [] rest with
        | nil => exact absurd hsp (splitGo_ne_nil pat rest (pat.length - 1) [])
        | cons y l =>
          have hih := ih (pat.length - 1) []
          rw [hsp] at hih
          rw [intercalate_two, hih]
          simp [substGo, h]
      · have hih := ih 0 (c :: acc)
        rw [show splitGo pat 0 acc (c :: rest) =
            splitGo pat 0 (c :: acc) rest from by simp [splitGo, h]]
        rw [hih]
        simp [substGo, h]

theorem jsReplaceAll_eq_substEvery (pat rep s : List Char) (h : pat ≠ []) :
    jsReplaceAll pat rep s = substEvery pat rep s := by
  cases pat with
  | nil => exact absurd rfl h
  | cons p ps =>
    simpa [jsReplaceAll, substEvery] using
      intercalate_splitGo (p :: ps) rep s 0 []

/-- Claim C4 (counterexample): the rendered prompt preview is not the
template with every occurrence of `{name}`, `{country}` and `{address}`
replaced by the respective form values.  On the template `"{name}"` the
`{name}` placeholder is left verbatim (the current form has no name field),
and on the template `"{country}"` with country value `"{address}"` the
sequential replacement also substitutes the address value into text the
first replacement produced, unlike a simultaneous substitution of the
template. -/
theorem renderPromptPreview_cex :
    renderPromptPreview "{name}" "C" "A" ≠ renderAllVars "N" "C" "A" "{name}" ∧
    renderPromptPreview "{country}" "{address}" "A" ≠
      renderAllVars "N" "{address}" "A" "{country}" := by
  decide

/-- Claim C4 (amended): the rendered prompt preview equals the template
with every occurrence of `{country}` replaced by the country value and
then, in that intermediate string, every occurrence of `{address}`
replaced by the address value; the `{name}` placeholder is not
substituted. -/
theorem renderPromptPreview_substEvery (tpl country address : String) :
    renderPromptPreview tpl country address =
      ⟨substEvery addressVar address.data
        (substEvery countryVar country.data tpl.data)⟩ := by
  unfold renderPromptPreview
  rw [jsReplaceAll_eq_substEvery countryVar country.data tpl.data (by decide),
    jsReplaceAll_eq_substEvery addressVar address.data _ (by decide)]

/-- Claim C1: for every valid `AddressInput` and non-empty duplicate-free
subset of the known pipeline ids, `split` succeeds with a
`ComparisonSubmission` whose `results` map has exactly one entry per
requested pipeline id — keys exactly the requested ids, in particular no
silent drops and no unrequested pipelines — and each entry is `Ok` or
`Failed`. -/
theorem split_results_complete (input : AddressInput) (selected : List String)
    (adapters : String → AddressInput → PipelineResult)
    (subId userId createdAt : String)
    (hraw : input.raw_address ≠ "")
    (hmodel : "bedrock_geonames" ∈ selected → jsTruthy input.model_id = true)
    (hne : selected ≠ [])
    (hknown : ∀ p ∈ selected, p ∈ knownPipelines)
    (hnd : selected.Nodup) :
    ∃ sub, split input selected adapters subId userId createdAt =
        Except.ok sub ∧
      sub.results.map Prod.fst = selected ∧
      (sub.results.map Prod.fst).Nodup ∧
      sub.results ≠ [] ∧
      (∀ pid, pid ∈ selected ↔ ∃ r, (pid, r) ∈ sub.results) ∧
      (∀ pr ∈ sub.results,
        (∃ a, pr.2 = PipelineResult.ok a) ∨
          ∃ reason pid, pr.2 = PipelineResult.failed reason pid) := by
  have hcond : (selected.contains "bedrock_geonames" && !jsTruthy input.model_id) = false := by
    by_cases hb : "bedrock_geonames" ∈ selected
    · simp [hmodel hb]
    · simp [List.contains, hb]
  refine ⟨{ submission_id := subId, user_id := userId, created_at := createdAt,
            input := input,
            results := selected.map (fun pid => (pid, adapters pid input)),
            preferred_method := Option.none }, ?_, ?_, ?_, ?_, ?_, ?_⟩
  · simp only [split, hcond]
    rw [if_neg hraw]
    simp
  · simp [List.map_map, Function.comp_def]
  · simpa [List.map_map, Function.comp_def] using hnd
  · simpa using hne
  · intro pid
    constructor
    · intro hp
      exact ⟨adapters pid input, List.mem_map.mpr ⟨pid, hp, rfl⟩⟩
    · rintro ⟨r, hr⟩
      obtain ⟨x, hx, hxe⟩ := List.mem_map.mp hr
      cases hxe
      exact hx
  · intro pr _
    cases h : pr.2 with
    | ok a => exact Or.inl ⟨a, rfl⟩
    | failed reason pid => exact Or.inr ⟨reason, pid, rfl⟩

theorem split_results_complete_witness :
    ∃ sub, split ⟨some "Jane Doe", some "CH", "Rue du Rhone 10", some "model-a"⟩
        knownPipelines
        (fun pid _ => PipelineResult.failed "timeout" pid)
        "01SUB" "user-1" "2026-02-03T08:57:00Z" = Except.ok sub ∧
      sub.results.map Prod.fst = knownPipelines := by
  obtain ⟨sub, h1, h2, -⟩ := split_results_complete
    ⟨some "Jane Doe", some "CH", "Rue du Rhone 10", some "model-a"⟩
    knownPipelines (fun pid _ => PipelineResult.failed "timeout" pid)
    "01SUB" "user-1" "2026-02-03T08:57:00Z"
    (by decide) (by decide) (by decide) (by decide) (by decide)
  exact ⟨sub, h1, h2⟩

theorem charToNat_inj (a b : Char) (h : a.toNat = b.toNat) : a = b := by
  have hv : a.val = b.val := by
    have h2 : a.val.toNat = b.val.toNat := h
    exact UInt32.eq_of_val_eq (Fin.ext h2)
  exact Char.eq_of_val_eq hv

theorem lexLeb_refl : ∀ l : List Char, lexLeb l l = true := by
  intro l
  induction l with
  | nil => rfl
  | cons x xs ih => simp [lexLeb, Nat.lt_irrefl, ih]

theorem lexLeb_trans : ∀ a b c : List Char, lexLeb a b = true →
    lexLeb b c = true → lexLeb a c = true := by
  intro a
  induction a with
  | nil => intro b c _ _; rfl
  | cons x xs ih =>
    intro b c h1 h2
    cases b with
    | nil => simp [lexLeb] at h1
    | cons y ys =>
      cases c with
      | nil => simp [lexLeb] at h2
      | cons z zs =>
        simp only [lexLeb] at h1 h2 ⊢
        rcases Nat.lt_trichotomy x.toNat y.toNat with hxy | hxy | hxy <;>
          rcases Nat.lt_trichotomy y.toNat z.toNat with hyz | hyz | hyz
        · simp [show x.toNat < z.toNat by omega]
        · simp [show x.toNat < z.toNat by omega]
        · simp [hyz, show ¬y.toNat < z.toNat by omega] at h2
        · simp [show x.toNat < z.toNat by omega]
        · have hxz : ¬x.toNat < z.toNat := by omega
          have hzx : ¬z.toNat < x.toNat := by omega
          simp only [if_neg hxz, if_neg hzx]
          simp only [if_neg (show ¬x.toNat < y.toNat by omega),
            if_neg (show ¬y.toNat < x.toNat by omega)] at h1
          simp only [if_neg (show ¬y.toNat < z.toNat by omega),
            if_neg (show ¬z.toNat < y.toNat by omega)] at h2
          exact ih ys zs h1 h2
        · simp [show ¬y.toNat < z.toNat by omega, hyz] at h2
        · simp [hxy, show ¬x.toNat < y.toNat by omega] at h1
        · simp [hxy, show ¬x.toNat < y.toNat by omega] at h1
        · simp [hxy, show ¬x.toNat < y.toNat by omega] at h1

theorem lexLeb_antisymm : ∀ a b : List Char, lexLeb a b = true →
    lexLeb b a = true → a = b := by
  intro a
  induction a with
  | nil =>
    intro b h1 h2
    cases b with
    | nil => rfl
    | cons y ys => simp [lexLeb] at h2
  | cons x xs ih =>
    intro b h1 h2
    cases b with
    | nil => simp [lexLeb] at h1
    | cons y ys =>
      simp only [lexLeb] at h1 h2
      rcases Nat.lt_trichotomy x.toNat y.toNat with hxy | hxy | hxy
      · simp [show ¬y.toNat < x.toNat by omega, hxy] at h2
      · simp only [if_neg (show ¬x.toNat < y.toNat by omega),
          if_neg (show ¬y.toNat < x.toNat by omega)] at h1 h2
        rw [charToNat_inj x y hxy, ih ys h1 h2]
      · simp [show ¬x.toNat < y.toNat by omega, hxy] at h1

theorem lexLtb_eq_not_lexLeb : ∀ a b : List Char,
    lexLtb a b = !lexLeb b a := by
  intro a
  induction a with
  | nil =>
    intro b
    cases b <;> rfl
  | cons x xs ih =>
    intro b
    cases b with
    | nil => rfl
    | cons y ys =>
      simp only [lexLtb, lexLeb]
      rcases Nat.lt_trichotomy x.toNat y.toNat with hxy | hxy | hxy
      · simp [hxy, show ¬y.toNat < x.toNat by omega]
      · simp only [if_neg (show ¬x.toNat < y.toNat by omega),
          if_neg (show ¬y.toNat < x.toNat by omega)]
        exact ih ys
      · simp [hxy, show ¬x.toNat < y.toNat by omega]

theorem lexLeb_total : ∀ a b : List Char,
    lexLeb a b = true ∨ lexLeb b a = true := by
  intro a
  induction a with
  | nil => intro b; exact Or.inl rfl
  | cons x xs ih =>
    intro b
    cases b with
    | nil => exact Or.inr rfl
    | cons y ys =>
      simp only [lexLeb]
      rcases Nat.lt_trichotomy x.toNat y.toNat with hxy | hxy | hxy
      · exact Or.inl (by simp [hxy])
      · have hn1 : ¬x.toNat < y.toNat := by omega
        have hn2 : ¬y.toNat < x.toNat := by omega
        rcases ih ys with h | h
        · exact Or.inl (by simp [hn1, hn2, h])
        · exact Or.inr (by simp [hn1, hn2, h])
      · exact Or.inr (by simp [hxy])

theorem strLeb_refl (a : String) : strLeb a a = true :=
  lexLeb_refl a.data

theorem strLeb_trans (a b c : String) (h1 : strLeb a b = true)
    (h2 : strLeb b c = true) : strLeb a c = true :=
  lexLeb_trans a.data b.data c.data h1 h2

theorem strLeb_antisymm (a b : String) (h1 : strLeb a b = true)
    (h2 : strLeb b a = true) : a = b := by
  cases a with
  | mk la =>
    cases b with
    | mk lb =>
      exact congrArg String.mk (lexLeb_antisymm la lb h1 h2)

theorem strLeb_of_strLtb (a b : String) (h : strLtb a b = true) :
    strLeb a b = true := by
  have hn := lexLtb_eq_not_lexLeb a.data b.data
  rw [strLtb] at h
  rw [h] at hn
  have hba : lexLeb b.data a.data = false := by
    cases hx : lexLeb b.data a.data with
    | false => rfl
    | true => rw [hx] at hn; simp at hn
  rcases lexLeb_total a.data b.data with hab | hba2
  · exact hab
  · rw [hba] at hba2
    cases hba2

theorem strLeb_of_not_strLtb (a b : String) (h : strLtb a b = false) :
    strLeb b a = true := by
  have hn := lexLtb_eq_not_lexLeb a.data b.data
  rw [strLtb] at h
  rw [h] at hn
  cases hx : lexLeb b.data a.data with
  | true => exact hx
  | false => rw [hx] at hn; simp at hn

theorem cityBeats_refl (r : CityRec) : cityBeats r r :=
  Or.inr ⟨rfl, strLeb_refl _⟩

theorem cityBeats_trans (a b c : CityRec) (h1 : cityBeats a b)
    (h2 : cityBeats b c) : cityBeats a c := by
  rcases h1 with h1 | ⟨h1p, h1i⟩ <;> rcases h2 with h2 | ⟨h2p, h2i⟩
  · exact Or.inl (lt_trans h2 h1)
  · exact Or.inl (h2p ▸ h1)
  · exact Or.inl (h1p ▸ h2)
  · exact Or.inr ⟨h2p.trans h1p, strLeb_trans _ _ _ h1i h2i⟩

theorem cityBetter_beats_left (b r : CityRec) :
    cityBeats (cityBetter b r) b := by
  unfold cityBetter
  split_ifs with h1 h2
  · exact Or.inl h1
  · exact Or.inr ⟨h2.1.symm, strLeb_of_strLtb _ _ h2.2⟩
  · exact cityBeats_refl b

theorem cityBetter_beats_right (b r : CityRec) :
    cityBeats (cityBetter b r) r := by
  unfold cityBetter
  split_ifs with h1 h2
  · exact cityBeats_refl r
  · exact cityBeats_refl r
  · rcases lt_trichotomy r.population b.population with hp | hp | hp
    · exact Or.inl hp
    · refine Or.inr ⟨hp, ?_⟩
      have hlt : strLtb r.rawId b.rawId = false := by
        cases hl : strLtb r.rawId b.rawId with
        | false => rfl
        | true => exact absurd ⟨hp, hl⟩ h2
      exact strLeb_of_not_strLtb r.rawId b.rawId hlt
    · exact absurd hp h1

theorem cityBetter_mem (b r : CityRec) :
    cityBetter b r = b ∨ cityBetter b r = r := by
  unfold cityBetter
  split_ifs
  · exact Or.inr rfl
  · exact Or.inr rfl
  · exact Or.inl rfl

theorem selectCityFrom_spec (l : List CityRec) :
    ∀ b : CityRec,
      (selectCityFrom b l = b ∨ selectCityFrom b l ∈ l) ∧
      cityBeats (selectCityFrom b l) b ∧
      ∀ x ∈ l, cityBeats (selectCityFrom b l) x := by
  induction l with
  | nil =>
    intro b
    exact ⟨Or.inl rfl, cityBeats_refl b, by simp⟩
  | cons r rest ih =>
    intro b
    obtain ⟨hmem, hb, hall⟩ := ih (cityBetter b r)
    have hbb : cityBeats (selectCityFrom (cityBetter b r) rest) b :=
      cityBeats_trans _ _ _ hb (cityBetter_beats_left b r)
    have hbr : cityBeats (selectCityFrom (cityBetter b r) rest) r :=
      cityBeats_trans _ _ _ hb (cityBetter_beats_right b r)
    refine ⟨?_, ?_, ?_⟩
    · rcases hmem with h | h
      · rcases cityBetter_mem b r with hc | hc
        · exact Or.inl (show selectCityFrom (cityBetter b r) rest = b from h.trans hc)
        · refine Or.inr ?_
          show selectCityFrom (cityBetter b r) rest ∈ r :: rest
          rw [h, hc]
          exact List.mem_cons_self r rest
      · exact Or.inr (List.mem_cons_of_mem r h)
    · exact hbb
    · intro x hx
      rcases List.mem_cons.mp hx with hx | hx
      · exact hx ▸ hbr
      · exact hall x hx

theorem selectCity_spec (l : List CityRec) (r : CityRec)
    (h : selectCity l = some r) :
    r ∈ l ∧ ∀ x ∈ l, cityBeats r x := by
  cases l with
  | nil => cases h
  | cons a rest =>
    have hr : selectCityFrom a rest = r := by
      simpa [selectCity] using h
    obtain ⟨hmem, hb, hall⟩ := selectCityFrom_spec rest a
    rw [hr] at hmem hb hall
    refine ⟨?_, ?_⟩
    · rcases hmem with h1 | h1
      · simp [h1]
      · exact List.mem_cons_of_mem a h1
    · intro x hx
      rcases List.mem_cons.mp hx with hx | hx
      · exact hx ▸ hb
      · exact hall x hx

theorem selectCity_eq_none (l : List CityRec) :
    selectCity l = Option.none ↔ l = [] := by
  cases l <;> simp [selectCity]

theorem cityBest_unique (l : List CityRec)
    (hinj : ∀ a ∈ l, ∀ b ∈ l, a.rawId = b.rawId → a = b)
    (r r' : CityRec) (hr : r ∈ l) (hr' : r' ∈ l)
    (hbr : ∀ x ∈ l, cityBeats r x) (hbr' : ∀ x ∈ l, cityBeats r' x) :
    r = r' := by
  have h1 := hbr r' hr'
  have h2 := hbr' r hr
  have hpop : r.population = r'.population := by
    rcases h1 with h1 | ⟨h1p, -⟩ <;> rcases h2 with h2 | ⟨h2p, -⟩ <;> omega
  have hid : r.rawId = r'.rawId := by
    rcases h1 with h1 | ⟨-, h1i⟩
    · omega
    · rcases h2 with h2 | ⟨-, h2i⟩
      · omega
      · exact strLeb_antisymm _ _ h1i h2i
  exact hinj r hr r' hr' hid

theorem selectCity_perm (l l' : List CityRec) (hp : List.Perm l l')
    (hinj : ∀ a ∈ l, ∀ b ∈ l, a.rawId = b.rawId → a = b) :
    selectCity l = selectCity l' := by
  cases hl : selectCity l with
  | none =>
    have : l = [] := (selectCity_eq_none l).mp hl
    subst this
    have : l' = [] := hp.nil_eq.symm
    subst this
    rfl
  | some r =>
    obtain ⟨hmem, hbeats⟩ := selectCity_spec l r hl
    cases hl' : selectCity l' with
    | none =>
      have : l' = [] := (selectCity_eq_none l').mp hl'
      subst this
      exact absurd (hp.mem_iff.mp hmem) (List.not_mem_nil r)
    | some r' =>
      obtain ⟨hmem', hbeats'⟩ := selectCity_spec l' r' hl'
      have hmem'' : r' ∈ l := hp.mem_iff.mpr hmem'
      have hbeats'' : ∀ x ∈ l, cityBeats r' x := fun x hx =>
        hbeats' x (hp.mem_iff.mp hx)
      exact congrArg some
        (cityBest_unique l hinj r r' hmem hmem'' hbeats hbeats'')

theorem find?_eq_some_of_unique {α : Type} (p : α → Bool) (a : α) :
    ∀ l : List α, a ∈ l → p a = true →
      (∀ b ∈ l, p b = true → b = a) → l.find? p = some a := by
  intro l
  induction l with
  | nil => intro h; cases h
  | cons c rest ih =>
    intro hmem hpa huniq
    cases hc : p c with
    | true =>
      rw [List.find?_cons_of_pos _ hc]
      exact congrArg some (huniq c (List.mem_cons_self c rest) hc)
    | false =>
      rw [List.find?_cons_of_neg _ (by simp [hc])]
      have har : a ∈ rest := by
        rcases List.mem_cons.mp hmem with h | h
        · rw [h] at hpa
          rw [hpa] at hc
          cases hc
        · exact h
      exact ih har hpa (fun b hb => huniq b (List.mem_cons_of_mem c hb))

theorem find?_perm_of_unique {α : Type} (p : α → Bool) (l l' : List α)
    (hp : List.Perm l l')
    (huniq : ∀ a ∈ l, ∀ b ∈ l, p a = true → p b = true → a = b) :
    l.find? p = l'.find? p := by
  cases h : l.find? p with
  | none =>
    rw [List.find?_eq_none] at h
    symm
    rw [List.find?_eq_none]
    intro x hx
    exact h x (hp.mem_iff.mpr hx)
  | some a =>
    have hpa := List.find?_some h
    have hma := List.mem_of_find?_eq_some h
    symm
    refine find?_eq_some_of_unique p a l' (hp.mem_iff.mp hma) hpa ?_
    intro b hb hpb
    exact huniq b (hp.mem_iff.mpr hb) a hma hpb hpa

/-- Claim C7: the Geocode Resolver is deterministic: its output does not
depend on the enumeration order of the reference tables (any permutation of
the dataset with well-formed keys resolves identically, so two calls with
identical normalized inputs always agree), and among the matching city
candidates the selected record is the one of highest population, ties
broken by lexicographically smallest raw identifier. -/
theorem resolve_deterministic (ds ds' : GeoRef) (cc : String)
    (postcode city : Option String)
    (hpp : List.Perm ds.postcodes ds'.postcodes)
    (hpc : List.Perm ds.cities ds'.cities)
    (hpkey : ∀ a ∈ ds.postcodes, ∀ b ∈ ds.postcodes,
      a.country = b.country → a.postcode = b.postcode → a = b)
    (hckey : ∀ a ∈ ds.cities, ∀ b ∈ ds.cities, a.rawId = b.rawId → a = b) :
    resolve ds cc postcode city = resolve ds' cc postcode city ∧
    (∀ c r, city = some c →
      selectCity (cityCandidates ds cc c) = some r →
      r ∈ cityCandidates ds cc c ∧
      ∀ x ∈ cityCandidates ds cc c,
        x.population ≤ r.population ∧
          (x.population = r.population → strLeb r.rawId x.rawId = true)) := by
  have hcandinj : ∀ c, ∀ a ∈ cityCandidates ds cc c, ∀ b ∈ cityCandidates ds cc c,
      a.rawId = b.rawId → a = b := by
    intro c a ha b hb
    exact hckey a (List.mem_of_mem_filter ha) b (List.mem_of_mem_filter hb)
  have hcity : resolveCity ds cc city = resolveCity ds' cc city := by
    cases city with
    | none => rfl
    | some c =>
      have hsel : selectCity (cityCandidates ds cc c) =
          selectCity (cityCandidates ds' cc c) :=
        selectCity_perm _ _ (hpc.filter _) (hcandinj c)
      simp only [resolveCity, cityCandidates] at *
      rw [hsel]
  refine ⟨?_, ?_⟩
  · cases postcode with
    | none => exact hcity
    | some pc =>
      have hfind : ds.postcodes.find?
            (fun r => r.country == upperString cc && r.postcode == pc) =
          ds'.postcodes.find?
            (fun r => r.country == upperString cc && r.postcode == pc) := by
        refine find?_perm_of_unique _ _ _ hpp ?_
        intro a ha b hb hpa hpb
        simp only [Bool.and_eq_true, beq_iff_eq] at hpa hpb
        exact hpkey a ha b hb (hpa.1.trans hpb.1.symm) (hpa.2.trans hpb.2.symm)
      simp only [resolve, hfind]
      cases ds'.postcodes.find?
          (fun r => r.country == upperString cc && r.postcode == pc) with
      | none => exact hcity
      | some r => rfl
  · intro c r hc hsel
    obtain ⟨hmem, hbeats⟩ := selectCity_spec _ r hsel
    refine ⟨hmem, ?_⟩
    intro x hx
    rcases hbeats x hx with h | ⟨hp2, hi⟩
    · exact ⟨le_of_lt h, fun he => absurd he (by omega)⟩
    · exact ⟨le_of_eq hp2, fun _ => hi⟩

theorem resolve_deterministic_witness :
    resolve
        ⟨[], [⟨"CH", "geneve", "B", 100, 46, 6⟩, ⟨"CH", "geneve", "A", 100, 47, 7⟩]⟩
        "ch" Option.none (some "Genève") =
      resolve
        ⟨[], [⟨"CH", "geneve", "A", 100, 47, 7⟩, ⟨"CH", "geneve", "B", 100, 46, 6⟩]⟩
        "ch" Option.none (some "Genève") ∧
    resolve
        ⟨[], [⟨"CH", "geneve", "B", 100, 46, 6⟩, ⟨"CH", "geneve", "A", 100, 47, 7⟩]⟩
        "ch" Option.none (some "Genève") =
      ResolveOutcome.found 47 7 GeoAccuracy.city (some "A") := by
  refine ⟨(resolve_deterministic
    ⟨[], [⟨"CH", "geneve", "B", 100, 46, 6⟩, ⟨"CH", "geneve", "A", 100, 47, 7⟩]⟩
    ⟨[], [⟨"CH", "geneve", "A", 100, 47, 7⟩, ⟨"CH", "geneve", "B", 100, 46, 6⟩]⟩
    "ch" Option.none (some "Genève")
    (by decide) (by decide) (by decide) (by decide)).1, by decide⟩

end AddressSplitter
